import Mathlib

/-!
Verification development for the Project-Validator repository.

The definitions below are shallow embeddings of the JavaScript sources:

* the task progression logic of the student portal
  (`FlaskValidatorApp.getCurrentTask` and the state update performed by
  `FlaskValidatorApp.performDemoValidation`);
* the markup parser (`HTMLParser` in
  `streamlit_app/pages/autoTestcaseGenerator.js`);
* the testcase generator (`generatePlaywrightActionsFromElements` and
  `generateProjectJSON`).

JavaScript numbers that only ever hold non-negative integers are modelled
as `Nat`; nullable / possibly-absent values as `Option`; fallible lookups
return `Option`.
-/

namespace ProjectValidator

/-! ## Task progression engine (src/unnamed/part_000)

the `unlock_condition` objects (a `min_score` and a `required_tasks` list) attached
to each task, and the student progress record mutated by the demo
validation path. -/

/-- The `unlock_condition` object carried by each task. -/
structure UnlockCondition where
  min_score : Nat
  required_tasks : List Nat
deriving DecidableEq, Repr

/-- A task as consumed by `getCurrentTask`: its `id` and its (possibly
absent) `unlock_condition`.  Remaining task payload (name, description,
validation rules, …) plays no role in the progression logic. -/
structure ProjectTask where
  id : Nat
  unlock_condition : Option UnlockCondition
deriving DecidableEq, Repr

/-- The expression `task.unlock_condition?.required_tasks || []` from
`getCurrentTask`. -/
def requiredTasksOf (task : ProjectTask) : List Nat :=
  match task.unlock_condition with
  | some u => u.required_tasks
  | none => []

/-- The `isUnlocked` boolean computed inside `getCurrentTask`:
`requiredTasks.every(rt => completedTasks.includes(rt))`.  Note that the
code consults only the prerequisite list; `min_score` is never read. -/
def isUnlockedJS (completedTasks : List Nat) (task : ProjectTask) : Bool :=
  (requiredTasksOf task).all (fun rt => completedTasks.contains rt)

/-- The loop condition of `getCurrentTask`:
`isUnlocked && !completedTasks.includes(task.id)`. -/
def eligibleJS (completedTasks : List Nat) (task : ProjectTask) : Bool :=
  isUnlockedJS completedTasks task && !(completedTasks.contains task.id)

/-- The method `FlaskValidatorApp.getCurrentTask` (src/unnamed/part_000, lines
1188–1205): walk `currentProjectData.tasks` in list order and return the
first task whose prerequisites are all completed and which is itself not
completed; `null` when none qualifies.  `completedTasks` is
`studentProgress?.completed_tasks || []`. -/
def getCurrentTask (tasks : List ProjectTask) (completedTasks : List Nat) :
    Option ProjectTask :=
  tasks.find? (eligibleJS completedTasks)

/-- The unlock predicate as the specification words it (for comparison with
the `isUnlockedJS` of the code): a task is unlocked iff it is not completed AND
the cumulative score is at least its minimum AND every prerequisite id is
in `completed`.  A task without an `unlock_condition` has no minimum and no
prerequisites. -/
def specUnlocked (completedTasks : List Nat) (score : Nat)
    (task : ProjectTask) : Bool :=
  !(completedTasks.contains task.id) &&
  (match task.unlock_condition with
   | some u => decide (u.min_score ≤ score)
   | none => true) &&
  (requiredTasksOf task).all (fun rt => completedTasks.contains rt)

/-- The student progress record (`studentProgress`) as mutated by
`performDemoValidation`. -/
structure StudentProgress where
  completed_tasks : List Nat
  total_score : Nat
  current_task : Nat
  last_updated : String
deriving DecidableEq, Repr

/-- The state update performed by `FlaskValidatorApp.performDemoValidation`
(src/unnamed/part_000, lines 1266–1292) when a passing verdict with `score`
points is recorded for `task`: if the task id is already in
`completed_tasks` nothing changes; otherwise the id is pushed, the score is
added, `current_task` becomes `task.id + 1` and the timestamp is
refreshed. -/
def recordOutcome (progress : StudentProgress) (taskId : Nat) (score : Nat)
    (now : String) : StudentProgress :=
  if progress.completed_tasks.contains taskId then progress
  else
    { completed_tasks := progress.completed_tasks ++ [taskId]
      total_score := progress.total_score + score
      current_task := taskId + 1
      last_updated := now }

/-! ## Configuration load with cycle detection (modelled from the spec) -/

/-- A task specification as the configuration loader sees it: unique id,
point value, prerequisite task ids and minimum cumulative score. -/
structure TaskSpec where
  id : Nat
  points : Nat
  prerequisites : List Nat
  min_score : Nat
deriving DecidableEq, Repr

/-- Does some task in the list carry the id `p`? -/
def hasId (tasks : List TaskSpec) (p : Nat) : Bool :=
  tasks.any (fun t => t.id == p)

/-- A task is removable once every prerequisite that names an existing task
has already been removed (prerequisites naming no task do not block). -/
def removable (tasks : List TaskSpec) (removed : List Nat) (t : TaskSpec) :
    Bool :=
  t.prerequisites.all (fun p => removed.contains p || !(hasId tasks p))

/-- One elimination round: every not-yet-removed removable task id is added
to the removed set. -/
def peel (tasks : List TaskSpec) (removed : List Nat) : List Nat :=
  removed ++
    (tasks.filter
      (fun t => !(removed.contains t.id) && removable tasks removed t)).map
      (fun t => t.id)

/-- Runs `n` elimination rounds starting from the empty removed set. -/
def peelIter (tasks : List TaskSpec) : Nat → List Nat
  | 0 => []
  | n + 1 => peel tasks (peelIter tasks n)

/-- Modelled from the spec: the configuration loader must "detect cycles in
the prerequisite graph … and reject the configuration before any evaluation
begins"; the backend loader that performs this check is not among the
provided sources.  A task participates in (or depends on) a cycle exactly
when `tasks.length` rounds of prerequisite elimination never remove it. -/
def hasCycle (tasks : List TaskSpec) : Bool :=
  tasks.any (fun t => !((peelIter tasks tasks.length).contains t.id))

/-- Modelled from the spec: configuration load rejects a cyclic
prerequisite graph with a configuration error and otherwise accepts the
task list unchanged. -/
def loadConfig (tasks : List TaskSpec) : Except String (List TaskSpec) :=
  if hasCycle tasks then Except.error "cyclic prerequisite graph"
  else Except.ok tasks

/-- A nonempty subset of the task list in which every task has a
prerequisite edge to some task of the subset — the standard witness that
the prerequisite graph contains a cycle (the tasks on any directed cycle
form such a set). -/
def CyclicSet (tasks S : List TaskSpec) : Prop :=
  S ≠ [] ∧ (∀ t ∈ S, t ∈ tasks) ∧ ∀ t ∈ S, ∃ u ∈ S, u.id ∈ t.prerequisites

/-- Tasks of a cyclic set are never removed by any number of elimination
rounds (ids are unique per the data model). -/
theorem cyclicSet_never_peeled (tasks S : List TaskSpec)
    (hnodup : (tasks.map TaskSpec.id).Nodup) (hcyc : CyclicSet tasks S) :
    ∀ n, ∀ t ∈ S, t.id ∉ peelIter tasks n := by
  obtain ⟨-, hsub, hedge⟩ := hcyc
  intro n
  induction n with
  | zero => intro t _ h; simp [peelIter] at h
  | succ n ih =>
    intro t htS hmem
    simp only [peelIter, peel, List.mem_append] at hmem
    rcases hmem with hmem | hmem
    · exact ih t htS hmem
    · obtain ⟨t', ht'filter, ht'id⟩ := List.mem_map.mp hmem
      have ht'tasks : t' ∈ tasks := List.mem_of_mem_filter ht'filter
      have hpred := List.of_mem_filter ht'filter
      have httasks : t ∈ tasks := hsub t htS
      have ht'eq : t' = t :=
        List.inj_on_of_nodup_map hnodup ht'tasks httasks ht'id
      subst ht'eq
      simp only [Bool.and_eq_true] at hpred
      have hrem : removable tasks (peelIter tasks n) t' = true := hpred.2
      obtain ⟨u, huS, hupre⟩ := hedge t' htS
      have := (List.all_eq_true.mp hrem) u.id hupre
      simp only [Bool.or_eq_true] at this
      rcases this with hin | hnotid
      · exact ih u huS (by simpa using hin)
      · have : hasId tasks u.id = true :=
          List.any_eq_true.mpr ⟨u, hsub u huS, by simp⟩
        simp [this] at hnotid

/-! ## String helpers shared by the parser and generator models

JS string primitives modelled over `List Char` / `String`.  Case mapping is
modelled for ASCII (the tag names, attribute names and file
extensions are ASCII). -/

/-- ASCII model of `String.prototype.toLowerCase` on one character. -/
def jsToLower (c : Char) : Char :=
  if 'A' ≤ c ∧ c ≤ 'Z' then Char.ofNat (c.toNat + 32) else c

/-- ASCII model of `String.prototype.toLowerCase`. -/
def lowerStr (s : String) : String :=
  String.mk (s.toList.map jsToLower)

/-- Index of the first occurrence of `pat` in `hay` (JS
`String.prototype.indexOf`); `none` for the JS value `-1`. -/
def findSubIdx (hay pat : List Char) : Option Nat :=
  if pat.isPrefixOf hay then some 0
  else
    match hay with
    | [] => none
    | _ :: rest => (findSubIdx rest pat).map (fun n => n + 1)

/-- JS `s.includes(sub)` substring test. -/
def jsIncludes (s sub : String) : Bool :=
  (findSubIdx s.toList sub.toList).isSome

/-- The expression `cls.split(" ")[0]`: the prefix of `s` before the first
space. -/
def firstSpaceWord (s : String) : String :=
  String.mk (s.toList.takeWhile (fun c => c ≠ ' '))

/-- The last path component of `p` (`path.basename` on posix, before any
extension stripping). -/
def baseNameOf (p : String) : String :=
  String.mk ((p.toList.reverse.takeWhile (fun c => c ≠ '/')).reverse)

/-- Node `path.extname`: the final-dot suffix of the last path component,
empty when that component has no dot, only a leading dot, or consists
solely of dots. -/
def extnameOf (filename : String) : String :=
  let b := (baseNameOf filename).toList
  if b.all (fun c => c = '.') then ""
  else
    let afterDot := b.reverse.takeWhile (fun c => c ≠ '.')
    if afterDot.length = b.length then ""
    else if afterDot.length + 1 = b.length then ""
    else String.mk ('.' :: afterDot.reverse)

/-- The expression `path.extname(filename).substring(1)` from the generator
loop. -/
def extOf (filename : String) : String :=
  (extnameOf filename).drop 1

/-- Node `path.basename(filename, path.extname(filename))`: the last path
component with its extension stripped. -/
def shortNameOf (filename : String) : String :=
  let b := baseNameOf filename
  let e := extnameOf filename
  if e ≠ "" ∧ e ≠ b ∧ b.endsWith e then b.dropRight e.length else b

/-! ## Playwright action generator
(`generatePlaywrightActionsFromElements`, identical in
src/Flask-app-validator/streamlit_app/pages/autoTestcaseGenerator.js lines
10–117 and src/unnamed/part_001 lines 13–120) -/

/-- The `attributes` payload of an analysis element as the generator reads
it: only `type` is consulted (`el.attributes?.type`). -/
structure GenAttributes where
  type : Option String
deriving DecidableEq, Repr

/-- An element of `fileData.analysis.elements` as consumed by the
generator; absent JS properties are `none`. -/
structure GenElement where
  tag : Option String
  «class» : Option String
  attributes : Option GenAttributes
deriving DecidableEq, Repr

/-- A generated Playwright action.  A fill action carries
`input_variants`; a click action instead carries `click: true`. -/
structure Action where
  selector_type : String
  selector_value : Option String
  input_variants : Option (List String)
  click : Bool
deriving DecidableEq, Repr

/-- An entry of the generated `validate` list. -/
structure ValidateRule where
  type : String
  value : String
deriving DecidableEq, Repr

/-- The if/else chain choosing `action.input_variants` and the
`validationTexts` pushes for an input element, given
`type = el.attributes?.type || "text"` and `cls = el.class || ""`. -/
def inputVariantsFor (type_ cls : String) : List String × List String :=
  if type_ = "password" ∨ jsIncludes cls "password" then
    if jsIncludes cls "confirm" ∨ jsIncludes cls "repeat" then
      (["Password123!", "Mismatch123", "Strong@Pass123"],
       ["Passwords must match"])
    else
      (["12345", "password", "Password123!", "Weakpass", "Strong@Pass123"],
       ["Password too short", "Add special characters"])
  else if type_ = "email" ∨ jsIncludes cls "email" then
    (["test@example.com", "invalid_email", "user@domain", "test@",
      "user@domain.com"],
     ["Invalid email format", "Email is required"])
  else if type_ = "text" ∨ jsIncludes cls "username" ∨ jsIncludes cls "name" then
    (["user123", "u", "verylongusername_exceeding_limit", "test_user",
      "admin"],
     ["Username too short", "Username already exists"])
  else if type_ = "number" ∨ jsIncludes cls "age" ∨ jsIncludes cls "phone" then
    (["25", "abc", "1234567890", "-5"], ["Invalid number format"])
  else
    (["sample", "test", "example"], [])

/-- One iteration of the `elements.forEach` body of the generator: the actions
pushed for this element (a fill action when the tag is `input`, then a
click action when the tag is `button` or `attributes.type` is `submit`)
and the validation texts pushed.  The `passwordFields` array of the source
is accumulated but never read and is omitted. -/
def stepForElement (el : GenElement) : List Action × List String :=
  let tag := el.tag.map lowerStr
  let cls := el.«class».getD ""
  let selector_value :=
    if firstSpaceWord cls = "" then none else some (firstSpaceWord cls)
  let type_ :=
    match el.attributes with
    | some a => match a.type with
      | some t => if t = "" then "text" else t
      | none => "text"
    | none => "text"
  let fills :=
    if tag = some "input" then
      [{ selector_type := "class", selector_value := selector_value,
         input_variants := some (inputVariantsFor type_ cls).1,
         click := false }]
    else []
  let texts := if tag = some "input" then (inputVariantsFor type_ cls).2 else []
  let clicks :=
    if tag = some "button" ∨
        (match el.attributes with | some a => a.type | none => none) =
          some "submit" then
      [{ selector_type := "class", selector_value := selector_value,
         input_variants := none, click := true }]
    else []
  (fills ++ clicks, texts)

/-- The function `generatePlaywrightActionsFromElements(elements)`: the accumulated
actions and the `validate` list (three default `text_present` checks, the
accumulated validation texts, then the conditional `url_redirect`
checks). -/
def generatePlaywrightActionsFromElements (elements : List GenElement) :
    List Action × List ValidateRule :=
  let actions := (elements.map (fun el => (stepForElement el).1)).flatten
  let validationTexts := (elements.map (fun el => (stepForElement el).2)).flatten
  let validate : List ValidateRule :=
    [⟨"text_present", "successful"⟩,
     ⟨"text_present", "Registration successful"⟩,
     ⟨"text_present", "Login successful"⟩] ++
    validationTexts.map (fun v => (⟨"text_present", v⟩ : ValidateRule))
  let validate := validate ++
    (if elements.any (fun el =>
        match el.«class» with | some c => jsIncludes c "register" | none => false)
     then [(⟨"url_redirect", "/login"⟩ : ValidateRule)] else []) ++
    (if elements.any (fun el =>
        match el.«class» with | some c => jsIncludes c "login" | none => false)
     then [(⟨"url_redirect", "/dashboard"⟩ : ValidateRule)] else [])
  (actions, validate)

/-! ## Project JSON generator (src/unnamed/part_001 `generateProjectJSON`) -/

/-- The analysis payload attached to a processed file. -/
structure AnalysisData where
  elements : List GenElement
deriving DecidableEq, Repr

/-- A `results.Code_Validation` entry for one file: `fileData.structure`
(opaque generated-test payload, `|| []` folded into the list) and
`fileData.analysis` (may be absent). -/
structure FileData where
  structureTests : List String
  analysis : Option AnalysisData
deriving DecidableEq, Repr

/-- The `validation_rules` object of a generated task.  File tasks fill
`file`, `generatedTests` and `analysis`; the canonical structure task
fills `checks` and `paths` (absent JS fields are empty / `none`; the JS
`{}` placed for a missing analysis is modelled as `none`). -/
structure GenValidationRules where
  type : String
  file : Option String
  points : Nat
  generatedTests : List String
  analysis : Option AnalysisData
  checks : List String
  paths : List String
deriving DecidableEq, Repr

/-- The `playwright_test` object of a generated file task. -/
structure GenPlaywrightTest where
  route : String
  actions : List Action
  validate : List ValidateRule
  points : Nat
deriving DecidableEq, Repr

/-- A generated task. -/
structure GenTask where
  id : Nat
  name : String
  description : String
  required_files : List String
  validation_rules : GenValidationRules
  playwright_test : Option GenPlaywrightTest
  unlock_condition : UnlockCondition
deriving DecidableEq, Repr

/-- Counts elements whose lowercased tag equals `form`. -/
def formCountOf (elements : List GenElement) : Nat :=
  (elements.filter (fun el => el.tag.map lowerStr = some "form")).length

/-- Counts elements whose lowercased tag equals `input`. -/
def inputCountOf (elements : List GenElement) : Nat :=
  (elements.filter (fun el => el.tag.map lowerStr = some "input")).length

/-- The per-file loop body of the generator: the task pushed for one
`Code_Validation` entry.  For an HTML file with a nonempty element
analysis the Playwright actions are generated and, when the analysis holds
at least one form or input, both point values become
`Math.min(20, 10 + formCount*3 + inputCount*2)`. -/
def makeFileTask (taskId : Nat) (filename : String) (fileData : FileData) :
    GenTask :=
  let ext := extOf filename
  let shortName := shortNameOf filename
  let baseTask : GenTask :=
    { id := taskId
      name := shortName ++ " Validation"
      description := "Auto-generated validation for " ++ filename
      required_files := [filename]
      validation_rules :=
        { type := ext, file := some filename, points := 10,
          generatedTests := fileData.structureTests,
          analysis := fileData.analysis, checks := [], paths := [] }
      playwright_test := some
        { route := "/" ++ shortName, actions := [], validate := [],
          points := 10 }
      unlock_condition := ⟨0, []⟩ }
  match fileData.analysis with
  | some a =>
    if ext = "html" ∧ a.elements ≠ [] then
      let generated := generatePlaywrightActionsFromElements a.elements
      let formCount := formCountOf a.elements
      let inputCount := inputCountOf a.elements
      let pts :=
        if 0 < formCount ∨ 0 < inputCount then
          min 20 (10 + formCount * 3 + inputCount * 2)
        else 10
      { baseTask with
        validation_rules := { baseTask.validation_rules with points := pts }
        playwright_test := some
          { route := "/" ++ shortName, actions := generated.1,
            validate := generated.2, points := pts } }
    else baseTask
  | none => baseTask

/-- The canonical "Validate Project Structure" task with a given id.  The
`hasTemplatesDir`/`hasStaticDir`/`hasAppPy`/`hasBaseHtml` booleans of the
source are computed but never used (the canonical checks are always
pushed), so the file-path argument is not needed. -/
def structureTaskFor (taskId : Nat) : GenTask :=
  { id := taskId
    name := "Validate Project Structure"
    description := "Check for essential Flask files and directories."
    required_files := ["app.py", "templates/", "static/", "templates/base.html"]
    validation_rules :=
      { type := "structure", file := none, points := 10,
        generatedTests := [], analysis := none,
        checks := ["app.py exists", "templates folder exists",
                   "static folder exists", "templates/base.html exists"],
        paths := ["app.py", "templates/", "static/", "templates/base.html"] }
    playwright_test := none
    unlock_condition := ⟨0, []⟩ }

/-- The merged project JSON document. -/
structure ProjectBase where
  project : String
  description : String
  tasks : List GenTask
deriving DecidableEq, Repr

/-- The function `generateProjectJSON` (src/unnamed/part_001, lines 121 to 240), as a pure
function of the previously persisted document (`existing`), the project
metadata and the `Code_Validation` results (directory reading, JSON
file IO and console logging stripped).  Note `taskId++` runs for the
structure task whether or not it is pushed, so file-task ids always start
at `base.tasks.length + 2`. -/
def generateProjectJSON (existing : Option ProjectBase)
    (project description : String) (results : List (String × FileData)) :
    ProjectBase :=
  let base := existing.getD { project := project, description := description,
                              tasks := [] }
  let taskId := base.tasks.length + 1
  let structureTask := structureTaskFor taskId
  let taskId := taskId + 1
  let hasExistingStructure :=
    base.tasks.any (fun t => t.validation_rules.type == "structure")
  let tasks1 :=
    if hasExistingStructure then base.tasks else base.tasks ++ [structureTask]
  let fileTasks := ((List.range results.length).zip results).map
    (fun p => makeFileTask (taskId + p.1) p.2.1 p.2.2)
  { base with tasks := tasks1 ++ fileTasks }

/-- One generator run applied to an existing document: project name,
description and results of that run. -/
def stepGenerate (b : ProjectBase)
    (run : String × String × List (String × FileData)) : ProjectBase :=
  generateProjectJSON (some b) run.1 run.2.1 run.2.2

/-- Number of structure-type tasks in a task list. -/
def countStruct (tasks : List GenTask) : Nat :=
  tasks.countP (fun t => t.validation_rules.type == "structure")

/-! ## Markup parser (`HTMLParser` in
src/Flask-app-validator/streamlit_app/pages/autoTestcaseGenerator.js)

The regex scanners are modelled as character-list scanners.  Global
regexes advance one position on a failed match attempt and resume after
the match on success, exactly as the `lastIndex` of the JS engine does;
greedy `[^>]*` runs to the first `>`, lazy `(.*?)` runs to the first
occurrence of the closing literal, and `/i` literals compare
case-insensitively (ASCII).  Scanners that resume at a computed remainder
take an explicit fuel argument (any fuel beyond the input length is
enough, since every step consumes at least one character); the public
wrappers pass `length + 1`. -/

/-- JS regex `\w`: `[A-Za-z0-9_]`. -/
def isWordChar (c : Char) : Bool :=
  decide (('a' ≤ c ∧ c ≤ 'z') ∨ ('A' ≤ c ∧ c ≤ 'Z') ∨
    ('0' ≤ c ∧ c ≤ '9') ∨ c = '_')

/-- The double-quote character. -/
def dquote : Char := Char.ofNat 34

/-- The single-quote character. -/
def squote : Char := Char.ofNat 39

/-- JS line terminators (not matched by `.` without the `/s` flag). -/
def isLineTerminator (c : Char) : Bool :=
  decide (c = Char.ofNat 10 ∨ c = Char.ofNat 13 ∨
    c = Char.ofNat 0x2028 ∨ c = Char.ofNat 0x2029)

/-- Whitespace removed by `String.prototype.trim` (common subset). -/
def isJsWhitespace (c : Char) : Bool :=
  decide (c = Char.ofNat 32 ∨ c = Char.ofNat 9 ∨ c = Char.ofNat 10 ∨
    c = Char.ofNat 13 ∨ c = Char.ofNat 11 ∨ c = Char.ofNat 12 ∨
    c = Char.ofNat 0xA0 ∨ c = Char.ofNat 0xFEFF)

/-- JS `String.prototype.trim`. -/
def jsTrim (l : List Char) : List Char :=
  ((l.dropWhile isJsWhitespace).reverse.dropWhile isJsWhitespace).reverse

/-- Does `lit` occur at the head of `l` (case-insensitively when `ci`)? -/
def litHere (ci : Bool) (lit l : List Char) : Bool :=
  if ci then (lit.map jsToLower).isPrefixOf (l.map jsToLower)
  else lit.isPrefixOf l

/-- Split `l` at the first occurrence of `lit` (case-insensitive when
`ci`): the content before it and the remainder after it.  When `allowNl`
is false — the regex has no `/s` flag — a line terminator in the content
aborts the match. -/
def splitUntilLit (ci allowNl : Bool) (lit : List Char) :
    List Char → Option (List Char × List Char)
  | [] => if litHere ci lit [] then some ([], []) else none
  | c :: rest =>
    if litHere ci lit (c :: rest) then some ([], (c :: rest).drop lit.length)
    else if !allowNl && isLineTerminator c then none
    else
      match splitUntilLit ci allowNl lit rest with
      | some (content, after) => some (c :: content, after)
      | none => none

/-- One attempt of `/<(\w+)([^>]*)>/` at the head of `l`: the tag word,
the attribute text, and the remainder after the closing `>`. -/
def tryElemMatch (l : List Char) : Option ((List Char × List Char) × List Char) :=
  match l with
  | '<' :: rest =>
    let word := rest.takeWhile isWordChar
    if word = [] then none
    else
      match splitUntilLit false true ['>'] (rest.dropWhile isWordChar) with
      | some (attrs, after) => some ((word, attrs), after)
      | none => none
  | _ => none

/-- The global scan of `/<(\w+)([^>]*)>/gi`. -/
def scanElemsF : Nat → List Char → List (List Char × List Char)
  | 0, _ => []
  | _ + 1, [] => []
  | fuel + 1, c :: rest =>
    match tryElemMatch (c :: rest) with
    | some (m, after) => m :: scanElemsF fuel after
    | none => scanElemsF fuel rest

/-- All matches of the element regex over the raw markup: every
tag-open occurrence `<word …>`, with its attribute text. -/
def elementMatches (htmlContent : String) : List (List Char × List Char) :=
  scanElemsF (htmlContent.toList.length + 1) htmlContent.toList

/-- One attempt of `/<name([^>]*)>/i` at the head of `l`. -/
def tryNamedOpen (name : List Char) (l : List Char) :
    Option (List Char × List Char) :=
  match l with
  | '<' :: rest =>
    if litHere true name rest then
      match splitUntilLit false true ['>'] (rest.drop name.length) with
      | some (attrs, after) => some (attrs, after)
      | none => none
    else none
  | _ => none

/-- The global scan of `/<name([^>]*)>/gi` (used for `img`, `link`,
`meta`): the attribute text of every match. -/
def scanNamedOpenF (name : List Char) : Nat → List Char → List (List Char)
  | 0, _ => []
  | _ + 1, [] => []
  | fuel + 1, c :: rest =>
    match tryNamedOpen name (c :: rest) with
    | some (attrs, after) => attrs :: scanNamedOpenF name fuel after
    | none => scanNamedOpenF name fuel rest

/-- One attempt of `/<name([^>]*)>(.*?)<\/name>/i` at the head of `l`
(`allowNl` is the `/s` flag): attribute text, content, remainder. -/
def tryNamedPair (name : List Char) (allowNl : Bool) (l : List Char) :
    Option ((List Char × List Char) × List Char) :=
  match l with
  | '<' :: rest =>
    if litHere true name rest then
      match splitUntilLit false true ['>'] (rest.drop name.length) with
      | some (attrs, rest2) =>
        match splitUntilLit true allowNl (('<' :: '/' :: name) ++ ['>']) rest2 with
        | some (content, after) => some ((attrs, content), after)
        | none => none
      | none => none
    else none
  | _ => none

/-- The global scan of the paired-tag regex (used for `form`, `a`,
`script`): attribute text and content of every match. -/
def scanNamedPairF (name : List Char) (allowNl : Bool) :
    Nat → List Char → List (List Char × List Char)
  | 0, _ => []
  | _ + 1, [] => []
  | fuel + 1, c :: rest =>
    match tryNamedPair name allowNl (c :: rest) with
    | some (m, after) => m :: scanNamedPairF name allowNl fuel after
    | none => scanNamedPairF name allowNl fuel rest

/-- An attribute value: a quoted string, or the literal `true` that
`parseAttributes` stores for a bare attribute name (`match[2] || true`,
which also turns an empty quoted value into `true`). -/
inductive AttrValue where
  | str (s : String)
  | flag
deriving DecidableEq, Repr

/-- The optional attribute-value regex group: `=`, an opening quote of
either kind, the value (no quotes inside), a closing quote of either
kind; the value and the remainder after the closing quote. -/
def tryAttrValue (l : List Char) : Option (List Char × List Char) :=
  match l with
  | '=' :: q :: rest =>
    if q = dquote ∨ q = squote then
      let value := rest.takeWhile (fun c => !(c == dquote) && !(c == squote))
      match rest.dropWhile (fun c => !(c == dquote) && !(c == squote)) with
      | _ :: after => some (value, after)
      | [] => none
    else none
  | _ => none

/-- The global scan of the name-value attribute regex from
`parseAttributes`: attribute names are lowercased, a name without a
(complete) quoted value is stored as the flag `true`. -/
def parseAttrsF : Nat → List Char → List (String × AttrValue)
  | 0, _ => []
  | _ + 1, [] => []
  | fuel + 1, c :: rest =>
    if isWordChar c then
      let name := (c :: rest).takeWhile isWordChar
      let after := (c :: rest).dropWhile isWordChar
      match tryAttrValue after with
      | some (value, rem) =>
        (String.mk (name.map jsToLower),
          if value = [] then AttrValue.flag else AttrValue.str (String.mk value))
          :: parseAttrsF fuel rem
      | none => (String.mk (name.map jsToLower), AttrValue.flag) :: parseAttrsF fuel after
    else parseAttrsF fuel rest

/-- The method `HTMLParser.parseAttributes`. -/
def parseAttributes (attrString : String) : List (String × AttrValue) :=
  parseAttrsF (attrString.toList.length + 1) attrString.toList

/-- Property read on the attributes object: repeated assignment to the
same (lowercased) name overwrites, so the last binding wins. -/
def jsGet : List (String × AttrValue) → String → Option AttrValue
  | [], _ => none
  | (n, v) :: rest, name =>
    match jsGet rest name with
    | some w => some w
    | none => if n = name then some v else none

/-- JS truthiness of an attribute value (`""` is falsy, `true` truthy). -/
def truthy : AttrValue → Bool
  | .str s => !(s == "")
  | .flag => true

/-- JS `x || null`. -/
def jsOrNull (v : Option AttrValue) : Option AttrValue :=
  match v with
  | some a => if truthy a then some a else none
  | none => none

/-- JS `x || "dflt"`. -/
def jsOrStr (v : Option AttrValue) (dflt : String) : AttrValue :=
  match v with
  | some a => if truthy a then a else .str dflt
  | none => .str dflt

/-- The expression `elementTag.match(/<(\w+)/i)?.[1]`: the word after the first `<` that
is followed by at least one word character. -/
def firstTagWord : List Char → Option (List Char)
  | [] => none
  | '<' :: rest =>
    let w := rest.takeWhile isWordChar
    if w = [] then firstTagWord rest else some w
  | _ :: rest => firstTagWord rest

/-- JS `substring` (clamps and swaps its endpoints). -/
def jsSubstring (l : List Char) (a b : Nat) : List Char :=
  (l.take (max a b)).drop (min a b)

/-- The method `HTMLParser.extractElementText`: re-find the matched open-tag text in
the whole content with `indexOf`, look for the corresponding closing tag
from there, and return the trimmed text between them (empty when either
search fails). -/
def extractElementText (htmlContent elementTag : String) : String :=
  match firstTagWord elementTag.toList with
  | none => ""
  | some tn =>
    let closingTag := ('<' :: '/' :: tn) ++ ['>']
    match findSubIdx htmlContent.toList elementTag.toList with
    | none => ""
    | some startIndex =>
      match findSubIdx (htmlContent.toList.drop startIndex) closingTag with
      | none => ""
      | some k =>
        String.mk (jsTrim (jsSubstring htmlContent.toList
          (startIndex + elementTag.toList.length) (startIndex + k)))

/-- An element record pushed by `extractElements`. -/
structure HtmlElement where
  tag : String
  attributes : List (String × AttrValue)
  id : Option AttrValue
  «class» : Option AttrValue
  text : String
deriving DecidableEq, Repr

/-- The `supportedElements` whitelist from the `HTMLParser`
constructor. -/
def supportedElements : List String :=
  ["div", "span", "p", "h1", "h2", "h3", "h4", "h5", "h6",
   "button", "input", "form", "label", "select", "textarea",
   "a", "img", "ul", "ol", "li", "table", "tr", "td", "th",
   "header", "footer", "nav", "main", "section", "article",
   "aside", "figure", "figcaption"]

/-- The loop body of `extractElements` for one regex match: lowercase the
tag name (`match[1].toLowerCase()`), parse the attribute text, and push
an element record only when the tag is in the `supportedElements`
whitelist (the matched text handed to `extractElementText` is
`<` ++ tag ++ attrs ++ `>`). -/
def elementFor (htmlContent : String) (m : List Char × List Char) :
    Option HtmlElement :=
  if supportedElements.contains (String.mk (m.1.map jsToLower)) then
    some { tag := String.mk (m.1.map jsToLower)
           attributes := parseAttributes (String.mk m.2)
           id := jsOrNull (jsGet (parseAttributes (String.mk m.2)) "id")
           «class» := jsOrNull (jsGet (parseAttributes (String.mk m.2)) "class")
           text := extractElementText htmlContent
             (String.mk ('<' :: (m.1 ++ m.2 ++ ['>']))) }
  else none

/-- The method `HTMLParser.extractElements` (autoTestcaseGenerator.js lines
524–585): run the element regex over the whole raw markup and push a
record per supported match. -/
def extractElements (htmlContent : String) : List HtmlElement :=
  (elementMatches htmlContent).filterMap (elementFor htmlContent)

/-- A match whose lowercased tag is outside the whitelist produces no
element. -/
theorem elementFor_none (htmlContent : String) (m : List Char × List Char)
    (h : supportedElements.contains (String.mk (m.1.map jsToLower)) = false) :
    elementFor htmlContent m = none := by
  unfold elementFor
  rw [if_neg]
  rw [h]
  exact Bool.false_ne_true

/-- A match whose lowercased tag is in the whitelist produces an element
carrying exactly that tag. -/
theorem elementFor_some (htmlContent : String) (m : List Char × List Char)
    (h : supportedElements.contains (String.mk (m.1.map jsToLower)) = true) :
    ∃ e, elementFor htmlContent m = some e ∧
      e.tag = String.mk (m.1.map jsToLower) := by
  unfold elementFor
  rw [if_pos h]
  exact ⟨_, rfl, rfl⟩

/-- A form input record pushed by `extractFormInputs`. -/
structure FormInput where
  type : String
  attributes : List (String × AttrValue)
  name : Option AttrValue
  id : Option AttrValue
  required : Bool
  placeholder : Option AttrValue
deriving DecidableEq, Repr

/-- One attempt of `/<(input|select|textarea)([^>]*)>/i`; the matched
alternative is returned lowercased (as `match[1].toLowerCase()` yields). -/
def tryInputMatch (l : List Char) : Option ((List Char × List Char) × List Char) :=
  match l with
  | '<' :: rest =>
    if litHere true ['i', 'n', 'p', 'u', 't'] rest then
      match splitUntilLit false true ['>'] (rest.drop 5) with
      | some (attrs, after) => some ((['i', 'n', 'p', 'u', 't'], attrs), after)
      | none => none
    else if litHere true ['s', 'e', 'l', 'e', 'c', 't'] rest then
      match splitUntilLit false true ['>'] (rest.drop 6) with
      | some (attrs, after) => some ((['s', 'e', 'l', 'e', 'c', 't'], attrs), after)
      | none => none
    else if litHere true ['t', 'e', 'x', 't', 'a', 'r', 'e', 'a'] rest then
      match splitUntilLit false true ['>'] (rest.drop 8) with
      | some (attrs, after) =>
        some ((['t', 'e', 'x', 't', 'a', 'r', 'e', 'a'], attrs), after)
      | none => none
    else none
  | _ => none

/-- The global scan of the form-input regex. -/
def scanInputsF : Nat → List Char → List (List Char × List Char)
  | 0, _ => []
  | _ + 1, [] => []
  | fuel + 1, c :: rest =>
    match tryInputMatch (c :: rest) with
    | some (m, after) => m :: scanInputsF fuel after
    | none => scanInputsF fuel rest

/-- The method `HTMLParser.extractFormInputs`. -/
def extractFormInputs (formContent : String) : List FormInput :=
  (scanInputsF (formContent.toList.length + 1) formContent.toList).map
    (fun m =>
      let attributes := parseAttributes (String.mk m.2)
      { type := String.mk m.1
        attributes := attributes
        name := jsOrNull (jsGet attributes "name")
        id := jsOrNull (jsGet attributes "id")
        required := (jsGet attributes "required").isSome
        placeholder := jsOrNull (jsGet attributes "placeholder") })

/-- A form record pushed by `extractForms`. -/
structure HtmlForm where
  attributes : List (String × AttrValue)
  action : Option AttrValue
  method : AttrValue
  inputs : List FormInput
deriving DecidableEq, Repr

/-- The method `HTMLParser.extractForms` (`/<form([^>]*)>(.*?)<\/form>/gis`). -/
def extractForms (htmlContent : String) : List HtmlForm :=
  (scanNamedPairF ['f', 'o', 'r', 'm'] true (htmlContent.toList.length + 1)
      htmlContent.toList).map (fun m =>
    let formAttributes := parseAttributes (String.mk m.1)
    { attributes := formAttributes
      action := jsOrNull (jsGet formAttributes "action")
      method := jsOrStr (jsGet formAttributes "method") "get"
      inputs := extractFormInputs (String.mk m.2) })

/-- A link record pushed by `extractLinks`. -/
structure HtmlLink where
  href : Option AttrValue
  text : String
  target : Option AttrValue
  attributes : List (String × AttrValue)
deriving DecidableEq, Repr

/-- The method `HTMLParser.extractLinks` (`/<a([^>]*)>(.*?)<\/a>/gi` with no `/s`, so
the link text cannot span a line terminator). -/
def extractLinks (htmlContent : String) : List HtmlLink :=
  (scanNamedPairF ['a'] false (htmlContent.toList.length + 1)
      htmlContent.toList).map (fun m =>
    let attributes := parseAttributes (String.mk m.1)
    { href := jsOrNull (jsGet attributes "href")
      text := String.mk (jsTrim m.2)
      target := jsOrNull (jsGet attributes "target")
      attributes := attributes })

/-- An image record pushed by `extractImages`. -/
structure HtmlImage where
  src : Option AttrValue
  alt : Option AttrValue
  width : Option AttrValue
  height : Option AttrValue
  attributes : List (String × AttrValue)
deriving DecidableEq, Repr

/-- The method `HTMLParser.extractImages` (`/<img([^>]*)>/gi`). -/
def extractImages (htmlContent : String) : List HtmlImage :=
  (scanNamedOpenF ['i', 'm', 'g'] (htmlContent.toList.length + 1)
      htmlContent.toList).map (fun attrsText =>
    let attributes := parseAttributes (String.mk attrsText)
    { src := jsOrNull (jsGet attributes "src")
      alt := jsOrNull (jsGet attributes "alt")
      width := jsOrNull (jsGet attributes "width")
      height := jsOrNull (jsGet attributes "height")
      attributes := attributes })

/-- A script record pushed by `extractScripts`. -/
structure HtmlScript where
  attributes : List (String × AttrValue)
  src : Option AttrValue
  type : AttrValue
  content : Option String
deriving DecidableEq, Repr

/-- The method `HTMLParser.extractScripts` (`/<script([^>]*)>(.*?)<\/script>/gis`;
the trimmed content, `|| null`). -/
def extractScripts (htmlContent : String) : List HtmlScript :=
  (scanNamedPairF ['s', 'c', 'r', 'i', 'p', 't'] true
      (htmlContent.toList.length + 1) htmlContent.toList).map (fun m =>
    let attributes := parseAttributes (String.mk m.1)
    let content := jsTrim m.2
    { attributes := attributes
      src := jsOrNull (jsGet attributes "src")
      type := jsOrStr (jsGet attributes "type") "text/javascript"
      content := if content = [] then none else some (String.mk content) })

/-- A stylesheet record pushed by `extractStylesheets`. -/
structure HtmlStylesheet where
  href : Option AttrValue
  type : AttrValue
  media : Option AttrValue
  attributes : List (String × AttrValue)
deriving DecidableEq, Repr

/-- The method `HTMLParser.extractStylesheets` (`/<link([^>]*)>/gi`, keeping only
matches whose `rel` attribute is the string `stylesheet`). -/
def extractStylesheets (htmlContent : String) : List HtmlStylesheet :=
  (scanNamedOpenF ['l', 'i', 'n', 'k'] (htmlContent.toList.length + 1)
      htmlContent.toList).filterMap (fun attrsText =>
    let attributes := parseAttributes (String.mk attrsText)
    if jsGet attributes "rel" = some (AttrValue.str "stylesheet") then
      some { href := jsOrNull (jsGet attributes "href")
             type := jsOrStr (jsGet attributes "type") "text/css"
             media := jsOrNull (jsGet attributes "media")
             attributes := attributes }
    else none)

/-- First match of `/<title>(.*?)<\/title>/i` (no `/g`, no `/s`). -/
def findTitle : List Char → Option String
  | [] => none
  | c :: rest =>
    if litHere true ['<', 't', 'i', 't', 'l', 'e', '>'] (c :: rest) then
      match splitUntilLit true false
          ['<', '/', 't', 'i', 't', 'l', 'e', '>'] ((c :: rest).drop 7) with
      | some (content, _) => some (String.mk (jsTrim content))
      | none => findTitle rest
    else findTitle rest

/-- The metadata record built by `extractMetadata`. -/
structure HtmlMetadata where
  title : Option String
  metaTags : List (List (String × AttrValue))
deriving DecidableEq, Repr

/-- The method `HTMLParser.extractMetadata`. -/
def extractMetadata (htmlContent : String) : HtmlMetadata :=
  { title := findTitle htmlContent.toList
    metaTags := (scanNamedOpenF ['m', 'e', 't', 'a']
        (htmlContent.toList.length + 1) htmlContent.toList).map
      (fun attrsText => parseAttributes (String.mk attrsText)) }

/-- The value returned by `HTMLParser.parse`. -/
structure ParseResult where
  elements : List HtmlElement
  forms : List HtmlForm
  links : List HtmlLink
  images : List HtmlImage
  scripts : List HtmlScript
  stylesheets : List HtmlStylesheet
  metadata : HtmlMetadata
deriving DecidableEq, Repr

/-- The method `HTMLParser.parse` (autoTestcaseGenerator.js lines 540 to 557): run the
seven extractors over the raw markup and collect their results.  The JS
method touches no state outside its locals (the constructor field
`supportedElements` is read-only), which the embedding reflects by being
a plain function of the input text. -/
def parse (htmlContent : String) : ParseResult :=
  { elements := extractElements htmlContent
    forms := extractForms htmlContent
    links := extractLinks htmlContent
    images := extractImages htmlContent
    scripts := extractScripts htmlContent
    stylesheets := extractStylesheets htmlContent
    metadata := extractMetadata htmlContent }

/-! ### Helper lemmas about `List.find?` -/

theorem find?_eq_some_split {α : Type} {p : α → Bool} :
    ∀ {l : List α} {a : α}, l.find? p = some a →
      ∃ l₁ l₂, l = l₁ ++ a :: l₂ ∧ p a = true ∧ ∀ b ∈ l₁, p b = false := by
  intro l
  induction l with
  | nil => intro a h; simp [List.find?] at h
  | cons x xs ih =>
    intro a h
    by_cases hx : p x = true
    · rw [List.find?_cons_of_pos _ hx] at h
      cases h
      exact ⟨[], xs, by simp, hx, by simp⟩
    · rw [List.find?_cons_of_neg _ hx] at h
      obtain ⟨l₁, l₂, hsplit, hpa, hall⟩ := ih h
      refine ⟨x :: l₁, l₂, by simp [hsplit], hpa, ?_⟩
      intro b hb
      rcases List.mem_cons.mp hb with hb | hb
      · subst hb; exact Bool.eq_false_iff.mpr hx
      · exact hall b hb

/-! ### Claims C1, C2, C5 -/

/-- C1 counterexample: the claim says a task whose `min_score` exceeds the
cumulative score is never unlocked, but `getCurrentTask` never consults
`min_score`.  With one task of `min_score = 100` and no prerequisites, a
student with cumulative score 0 and nothing completed is still handed that
task as the current (unlocked) one, even though the unlock predicate of the
specification rejects it at score 0. -/
theorem getCurrentTask_ignores_min_score :
    isUnlockedJS [] ⟨1, some ⟨100, []⟩⟩ = true ∧
    getCurrentTask [⟨1, some ⟨100, []⟩⟩] [] = some ⟨1, some ⟨100, []⟩⟩ ∧
    specUnlocked [] 0 ⟨1, some ⟨100, []⟩⟩ = false := by
  refine ⟨rfl, rfl, rfl⟩

/-- C1 (amended): a task is treated as unlocked iff every prerequisite id
is in the completed list — the minimum-score threshold is not consulted —
and the task returned by `getCurrentTask` is a member of the task list, is
unlocked in this sense, and is not completed. -/
theorem isUnlockedJS_iff_prereqs (tasks : List ProjectTask)
    (completedTasks : List Nat) :
    (∀ task : ProjectTask, isUnlockedJS completedTasks task = true ↔
      ∀ rt ∈ requiredTasksOf task, rt ∈ completedTasks) ∧
    (∀ task : ProjectTask, getCurrentTask tasks completedTasks = some task →
      task ∈ tasks ∧ (∀ rt ∈ requiredTasksOf task, rt ∈ completedTasks) ∧
        task.id ∉ completedTasks) := by
  have hunlock : ∀ task : ProjectTask,
      isUnlockedJS completedTasks task = true ↔
        ∀ rt ∈ requiredTasksOf task, rt ∈ completedTasks := by
    intro task
    simp [isUnlockedJS, List.all_eq_true]
  refine ⟨hunlock, ?_⟩
  intro task h
  have hmem : task ∈ tasks := List.mem_of_find?_eq_some h
  have helig : eligibleJS completedTasks task = true := List.find?_some h
  simp only [eligibleJS, Bool.and_eq_true] at helig
  refine ⟨hmem, (hunlock task).mp helig.1, ?_⟩
  intro hmem'
  have h2 := helig.2
  simp [hmem'] at h2

/-- C1 amended-claim witness at a concrete input: for the single task
`⟨2, some ⟨0, [1]⟩⟩` with task 1 completed, `getCurrentTask` returns it,
and the theorem yields its prerequisites are completed and it is not
itself completed. -/
theorem isUnlockedJS_iff_prereqs_witness :
    (⟨2, some ⟨0, [1]⟩⟩ : ProjectTask) ∈ [(⟨2, some ⟨0, [1]⟩⟩ : ProjectTask)] ∧
    (∀ rt ∈ requiredTasksOf ⟨2, some ⟨0, [1]⟩⟩, rt ∈ [1]) ∧
    (2 : Nat) ∉ [1] :=
  (isUnlockedJS_iff_prereqs [⟨2, some ⟨0, [1]⟩⟩] [1]).2 ⟨2, some ⟨0, [1]⟩⟩ rfl

/-- C2: recording the same passing verdict twice yields the same completed
set and the same cumulative score as recording it once — the second
application finds the task id already in `completed_tasks` and changes
nothing (timestamps included). -/
theorem recordOutcome_idempotent (progress : StudentProgress)
    (taskId score : Nat) (now now' : String) :
    (recordOutcome (recordOutcome progress taskId score now) taskId score
        now').completed_tasks =
      (recordOutcome progress taskId score now).completed_tasks ∧
    (recordOutcome (recordOutcome progress taskId score now) taskId score
        now').total_score =
      (recordOutcome progress taskId score now).total_score := by
  by_cases h : taskId ∈ progress.completed_tasks
  · refine ⟨?_, ?_⟩ <;> simp [recordOutcome, h]
  · refine ⟨?_, ?_⟩ <;> simp [recordOutcome, h]

/-- C5 counterexample: with the task list `[⟨2, none⟩, ⟨1, none⟩]` (both
tasks unlocked, nothing completed) `getCurrentTask` returns the task with
id 2 because it comes first in the list, even though the unlocked task with
the smallest id is task 1, so the smallest-id tie-break of the claim does not
hold. -/
theorem getCurrentTask_not_smallest_id :
    getCurrentTask [⟨2, none⟩, ⟨1, none⟩] [] = some ⟨2, none⟩ ∧
    isUnlockedJS [] ⟨1, none⟩ = true ∧
    ¬((2 : Nat) ≤ 1) := by
  refine ⟨rfl, rfl, by decide⟩

/-- C5 (amended): the current/next task is the FIRST task in input-list
order that is unlocked and not completed: whenever `getCurrentTask` returns
`task`, the list splits as `l₁ ++ task :: l₂` where `task` is eligible and
every task before it in the list is not (either locked or completed). -/
theorem getCurrentTask_first_in_list_order (tasks : List ProjectTask)
    (completedTasks : List Nat) (task : ProjectTask)
    (h : getCurrentTask tasks completedTasks = some task) :
    ∃ l₁ l₂, tasks = l₁ ++ task :: l₂ ∧
      eligibleJS completedTasks task = true ∧
      ∀ t ∈ l₁, eligibleJS completedTasks t = false :=
  find?_eq_some_split h

/-- C5 amended-claim witness: on `[⟨2, none⟩, ⟨1, none⟩]` with nothing
completed the returned task is `⟨2, none⟩` and the theorem produces the
split of the list at it. -/
theorem getCurrentTask_first_in_list_order_witness :
    ∃ l₁ l₂, [(⟨2, none⟩ : ProjectTask), ⟨1, none⟩] = l₁ ++ ⟨2, none⟩ :: l₂ ∧
      eligibleJS [] ⟨2, none⟩ = true ∧
      ∀ t ∈ l₁, eligibleJS [] t = false :=
  getCurrentTask_first_in_list_order [⟨2, none⟩, ⟨1, none⟩] [] ⟨2, none⟩ rfl

/-! ### Claims C3, C4, C7 -/

/-- C3 counterexample: the raw markup `<customtag>` contains one tag-open
occurrence, with tag name `customtag`, yet `extractElements` returns the
empty element list — an unknown/custom tag is silently dropped by the
`supportedElements` whitelist, refuting the claim that every tag
occurrence is represented. -/
theorem extractElements_drops_unknown_tag :
    (elementMatches "<customtag>").map
      (fun m => String.mk (m.1.map jsToLower)) = ["customtag"] ∧
    extractElements "<customtag>" = [] :=
  ⟨rfl, rfl⟩

/-- C3 (amended): the element list represents exactly the tag-open
occurrences whose lowercased tag name is in the `supportedElements`
whitelist, in input order; occurrences of any other tag (unknown or
custom) are dropped. -/
theorem extractElements_tags_eq_filter (htmlContent : String) :
    (extractElements htmlContent).map (fun e => e.tag) =
      ((elementMatches htmlContent).map
        (fun m => String.mk (m.1.map jsToLower))).filter
        (fun t => supportedElements.contains t) := by
  unfold extractElements
  generalize elementMatches htmlContent = l
  induction l with
  | nil => rfl
  | cons m ms ih =>
    rcases h : supportedElements.contains (String.mk (m.1.map jsToLower))
      with _ | _
    · have hnone := elementFor_none htmlContent m h
      simp only [List.filterMap_cons, hnone, List.map_cons, List.filter_cons, h,
        Bool.false_eq_true, if_false]
      exact ih
    · obtain ⟨e, hsome, htag⟩ := elementFor_some htmlContent m h
      simp only [List.filterMap_cons, hsome, List.map_cons, List.filter_cons, h,
        if_true]
      rw [ih, htag]

/-- C4 counterexample: in
`<script>var s = "<div>";</script>` the only `div`-shaped text lies
inside the script body (the script content extracted by the parser is
exactly `var s = "<div>";`), yet the element list reports a `div`
element — `extractElements` scans script content like any other text,
refuting the claim that only tags outside script/style content are
reported. -/
theorem extractElements_reports_script_body_tag :
    (extractScripts "<script>var s = \"<div>\";</script>").map
      (fun s => s.content) = [some "var s = \"<div>\";"] ∧
    (extractElements "<script>var s = \"<div>\";</script>").map
      (fun e => e.tag) = ["div"] :=
  ⟨rfl, rfl⟩

/-- C4 (amended): the element scan is position-blind — every tag-open
occurrence whose lowercased tag is in the whitelist yields an element
with that tag, wherever in the raw input it occurs, including inside
script or style bodies. -/
theorem elementMatch_supported_is_reported (htmlContent : String)
    (m : List Char × List Char) (hm : m ∈ elementMatches htmlContent)
    (hsup : supportedElements.contains (String.mk (m.1.map jsToLower)) = true) :
    ∃ e ∈ extractElements htmlContent,
      e.tag = String.mk (m.1.map jsToLower) := by
  obtain ⟨e, hsome, htag⟩ := elementFor_some htmlContent m hsup
  exact ⟨e, List.mem_filterMap.mpr ⟨m, hm, hsome⟩, htag⟩

/-- C4 amended-claim witness: the `div` occurrence inside the script body
of `<script>var s = "<div>";</script>` is reported as an element. -/
theorem elementMatch_supported_is_reported_witness :
    ∃ e ∈ extractElements "<script>var s = \"<div>\";</script>",
      e.tag = String.mk ((['d', 'i', 'v'] : List Char).map jsToLower) :=
  elementMatch_supported_is_reported "<script>var s = \"<div>\";</script>"
    (['d', 'i', 'v'], []) (by decide) (by decide)

/-- C7: the markup parse operation is a pure function of its input text —
the embedding of `HTMLParser.parse` is a plain function with no state
parameter, so two runs on the same raw markup yield equal results. -/
theorem parse_deterministic (raw : String) : parse raw = parse raw := rfl

/-! ### Claims C8, C9, C10 -/

/-- Every branch of the input-variant chain assigns a nonempty list (the
final `else` supplies the default `["sample", "test", "example"]`). -/
theorem inputVariantsFor_fst_ne_nil (type_ cls : String) :
    (inputVariantsFor type_ cls).1 ≠ [] := by
  unfold inputVariantsFor
  repeat' split
  all_goals simp

/-- Every action pushed for one element has selector type `"class"`, and
when it carries an `input_variants` list that list is nonempty. -/
theorem stepForElement_action_inv (el : GenElement) (a : Action)
    (ha : a ∈ (stepForElement el).1) :
    a.selector_type = "class" ∧ ∀ l, a.input_variants = some l → l ≠ [] := by
  simp only [stepForElement, List.mem_append] at ha
  rcases ha with ha | ha
  · split at ha
    · simp only [List.mem_singleton] at ha
      subst ha
      refine ⟨rfl, ?_⟩
      intro l hl
      injection hl with hl
      exact hl ▸ inputVariantsFor_fst_ne_nil _ _
    · simp at ha
  · split at ha
    · simp only [List.mem_singleton] at ha
      subst ha
      exact ⟨rfl, fun l hl => by cases hl⟩
    · simp at ha

/-- C9 counterexample: for a single input element whose attribute type is
submit, the generator emits two
actions — the fill action and then a click action for the submit input —
and the click action carries no `input_variants` at all, refuting the
claim that every action generated from an input element carries a
non-empty `input_variants` list. -/
theorem generateActions_submit_click_no_variants :
    ((generatePlaywrightActionsFromElements
        [⟨some "input", none, some ⟨some "submit"⟩⟩]).1).map
      (fun a => a.input_variants) =
      [some ["sample", "test", "example"], none] := rfl

/-- C9 (amended): every generated action has selector type `"class"`;
every action that carries an `input_variants` list (i.e. every fill
action, in particular each one generated from an input element) carries a
non-empty one — but a click action emitted for a submit-typed input
carries none — and the `validate` list always contains at least three
`text_present` assertions. -/
theorem generateActions_invariants (elements : List GenElement) :
    (∀ a ∈ (generatePlaywrightActionsFromElements elements).1,
        a.selector_type = "class" ∧
        ∀ l, a.input_variants = some l → l ≠ []) ∧
    3 ≤ (generatePlaywrightActionsFromElements elements).2.countP
        (fun v => v.type == "text_present") := by
  constructor
  · intro a ha
    simp only [generatePlaywrightActionsFromElements] at ha
    rw [List.mem_flatten] at ha
    obtain ⟨l, hl, hal⟩ := ha
    obtain ⟨el, -, rfl⟩ := List.mem_map.mp hl
    exact stepForElement_action_inv el a hal
  · simp only [generatePlaywrightActionsFromElements]
    rw [List.countP_append, List.countP_append, List.countP_append]
    have hbase : List.countP
        (fun v : ValidateRule => v.type == "text_present")
        [⟨"text_present", "successful"⟩,
         ⟨"text_present", "Registration successful"⟩,
         ⟨"text_present", "Login successful"⟩] = 3 := rfl
    omega

/-- C9 amended-claim witness: a concrete fill action generated for a bare
input element has selector type `"class"` and its variant list is
nonempty. -/
theorem generateActions_invariants_witness :
    ({ selector_type := "class", selector_value := none,
       input_variants := some ["user123", "u",
         "verylongusername_exceeding_limit", "test_user", "admin"],
       click := false } : Action).selector_type = "class" ∧
    ["user123", "u", "verylongusername_exceeding_limit", "test_user",
      "admin"] ≠ ([] : List String) := by
  have h := (generateActions_invariants [⟨some "input", none, none⟩]).1
    { selector_type := "class", selector_value := none,
      input_variants := some ["user123", "u",
        "verylongusername_exceeding_limit", "test_user", "admin"],
      click := false } (by decide)
  exact ⟨h.1, h.2 _ rfl⟩

/-- C8: for an HTML file whose element analysis contains at least one form
or input element, the `playwright_test.points` of the generated task and its
`validation_rules.points` both equal
`min(20, 10 + 3·formCount + 2·inputCount)`, a value between 10 and 20. -/
theorem makeFileTask_html_points (taskId : Nat) (filename : String)
    (fileData : FileData) (a : AnalysisData)
    (hana : fileData.analysis = some a)
    (hext : extOf filename = "html")
    (hfi : 0 < formCountOf a.elements ∨ 0 < inputCountOf a.elements) :
    ∃ pt, (makeFileTask taskId filename fileData).playwright_test = some pt ∧
      pt.points =
        min 20 (10 + formCountOf a.elements * 3 + inputCountOf a.elements * 2) ∧
      (makeFileTask taskId filename fileData).validation_rules.points =
        pt.points ∧
      10 ≤ pt.points ∧ pt.points ≤ 20 := by
  have hne : a.elements ≠ [] := by
    intro he
    rcases hfi with h | h <;>
      simp [formCountOf, inputCountOf, he] at h
  unfold makeFileTask
  rw [hana]
  simp only [if_pos (And.intro hext hne), if_pos hfi]
  refine ⟨_, rfl, rfl, rfl, ?_, ?_⟩
  · show 10 ≤ min 20 (10 + formCountOf a.elements * 3 +
      inputCountOf a.elements * 2)
    omega
  · show min 20 (10 + formCountOf a.elements * 3 +
      inputCountOf a.elements * 2) ≤ 20
    omega

/-- C8 witness: a two-element analysis (one form, one input) of
`templates/index.html` yields points `min 20 (10 + 3 + 2) = 15` on both
rules. -/
theorem makeFileTask_html_points_witness :
    ∃ pt, (makeFileTask 2 "templates/index.html"
        ⟨[], some ⟨[⟨some "form", none, none⟩,
                    ⟨some "input", none, none⟩]⟩⟩).playwright_test =
        some pt ∧
      pt.points = min 20 (10 +
        formCountOf [⟨some "form", none, none⟩, ⟨some "input", none, none⟩] * 3 +
        inputCountOf [⟨some "form", none, none⟩, ⟨some "input", none, none⟩] * 2) ∧
      (makeFileTask 2 "templates/index.html"
        ⟨[], some ⟨[⟨some "form", none, none⟩,
                    ⟨some "input", none, none⟩]⟩⟩).validation_rules.points =
        pt.points ∧
      10 ≤ pt.points ∧ pt.points ≤ 20 :=
  makeFileTask_html_points 2 "templates/index.html"
    ⟨[], some ⟨[⟨some "form", none, none⟩, ⟨some "input", none, none⟩]⟩⟩
    ⟨[⟨some "form", none, none⟩, ⟨some "input", none, none⟩]⟩
    rfl (by decide) (by decide)

/-- The `validation_rules.type` of a file task is the extension of the file. -/
theorem makeFileTask_type (taskId : Nat) (filename : String)
    (fileData : FileData) :
    (makeFileTask taskId filename fileData).validation_rules.type =
      extOf filename := by
  unfold makeFileTask
  split
  · dsimp only
    split
    · rfl
    · rfl
  · rfl

/-- One generator run on a base whose processed files never have extension
`structure` yields exactly `max (countStruct base) 1` structure-type
tasks: the canonical task is added exactly when none was present. -/
theorem countStruct_generate_single (b : ProjectBase) (p d : String)
    (results : List (String × FileData))
    (hclean : ∀ r ∈ results, extOf r.1 ≠ "structure") :
    countStruct (generateProjectJSON (some b) p d results).tasks =
      max (countStruct b.tasks) 1 := by
  simp only [generateProjectJSON, Option.getD, countStruct]
  rw [List.countP_append]
  have hfile : List.countP
      (fun t : GenTask => t.validation_rules.type == "structure")
      (((List.range results.length).zip results).map
        (fun q => makeFileTask (b.tasks.length + 1 + 1 + q.1) q.2.1 q.2.2)) =
      0 := by
    rw [List.countP_eq_zero]
    intro t ht
    obtain ⟨q, hq, rfl⟩ := List.mem_map.mp ht
    rw [Bool.not_eq_true, makeFileTask_type]
    have hmem : q.2 ∈ results := by
      obtain ⟨x, y⟩ := q
      exact (List.of_mem_zip hq).2
    exact beq_eq_false_iff_ne.mpr (hclean q.2 hmem)
  rw [hfile]
  by_cases hs : b.tasks.any
      (fun t => t.validation_rules.type == "structure") = true
  · rw [if_pos hs]
    have hpos : 0 < List.countP
        (fun t : GenTask => t.validation_rules.type == "structure") b.tasks := by
      rw [List.countP_pos_iff]
      exact List.any_eq_true.mp hs
    omega
  · rw [if_neg hs]
    have hzero : List.countP
        (fun t : GenTask => t.validation_rules.type == "structure") b.tasks =
        0 := by
      rw [List.countP_eq_zero]
      intro t ht hpred
      exact hs (List.any_eq_true.mpr ⟨t, ht, hpred⟩)
    rw [List.countP_append, hzero]
    rfl

/-- C10: the generator adds the canonical "Validate Project Structure"
task exactly when the existing list holds no structure-type task (the
structure-task count of a single run is `max (previous count) 1`), and
iterating the generator any number of times over runs whose processed
files never have extension `structure` leaves at most one structure-type
task more than the starting list had. -/
theorem generateProjectJSON_structure_once (b : ProjectBase) (p d : String)
    (results : List (String × FileData))
    (runs : List (String × String × List (String × FileData)))
    (h1 : ∀ r ∈ results, extOf r.1 ≠ "structure")
    (h2 : ∀ run ∈ runs, ∀ r ∈ run.2.2, extOf r.1 ≠ "structure") :
    countStruct (generateProjectJSON (some b) p d results).tasks =
      max (countStruct b.tasks) 1 ∧
    countStruct (runs.foldl stepGenerate b).tasks ≤
      countStruct b.tasks + 1 := by
  refine ⟨countStruct_generate_single b p d results h1, ?_⟩
  have key : ∀ (rs : List (String × String × List (String × FileData)))
      (b' : ProjectBase),
      (∀ run ∈ rs, ∀ r ∈ run.2.2, extOf r.1 ≠ "structure") →
      countStruct (rs.foldl stepGenerate b').tasks ≤
        max (countStruct b'.tasks) 1 := by
    intro rs
    induction rs with
    | nil =>
      intro b' _
      simp only [List.foldl_nil]
      omega
    | cons r rest ih =>
      intro b' h
      rw [List.foldl_cons]
      have hrec := ih (stepGenerate b' r)
        (fun ru hru => h ru (List.mem_cons_of_mem _ hru))
      have hstep : countStruct (stepGenerate b' r).tasks =
          max (countStruct b'.tasks) 1 :=
        countStruct_generate_single b' r.1 r.2.1 r.2.2
          (h r (List.mem_cons_self _ _))
      rw [hstep] at hrec
      omega
  have := key runs b h2
  omega

/-- C10 witness: starting from an empty document, one run and then a
two-run iteration over `index.html` each leave exactly one structure-type
task. -/
theorem generateProjectJSON_structure_once_witness :
    countStruct (generateProjectJSON (some ⟨"P", "D", []⟩) "P" "D"
        [("index.html", ⟨[], none⟩)]).tasks =
      max (countStruct ([] : List GenTask)) 1 ∧
    countStruct (([("P", "D", [("index.html", ⟨[], none⟩)]),
        ("P", "D", [("index.html", ⟨[], none⟩)])].foldl stepGenerate
        ⟨"P", "D", []⟩ :
        ProjectBase)).tasks ≤ countStruct ([] : List GenTask) + 1 :=
  generateProjectJSON_structure_once ⟨"P", "D", []⟩ "P" "D"
    [("index.html", ⟨[], none⟩)]
    [("P", "D", [("index.html", ⟨[], none⟩)]),
     ("P", "D", [("index.html", ⟨[], none⟩)])]
    (by decide) (by decide)

/-- C6: a configuration whose prerequisite graph contains a cycle —
witnessed by a nonempty set of tasks each of which has a prerequisite edge
into the set, as with mutually prerequisite tasks A and B — is rejected by
the configuration load with a configuration error, never accepted (the
loader is modelled from the spec; ids are unique per the data model). -/
theorem loadConfig_rejects_cyclic (tasks S : List TaskSpec)
    (hnodup : (tasks.map TaskSpec.id).Nodup) (hcyc : CyclicSet tasks S) :
    loadConfig tasks = Except.error "cyclic prerequisite graph" := by
  have hne := hcyc.1
  have hsub := hcyc.2.1
  obtain ⟨t, htS⟩ := List.exists_mem_of_ne_nil S hne
  have hnot := cyclicSet_never_peeled tasks S hnodup hcyc tasks.length t htS
  have hcycle : hasCycle tasks = true := by
    refine List.any_eq_true.mpr ⟨t, hsub t htS, ?_⟩
    simpa using hnot
  simp [loadConfig, hcycle]

/-- C6 witness: the two-task configuration in which task 1 requires task 2
and task 2 requires task 1 is rejected at load. -/
theorem loadConfig_rejects_cyclic_witness :
    loadConfig [⟨1, 10, [2], 0⟩, ⟨2, 10, [1], 0⟩] =
      Except.error "cyclic prerequisite graph" :=
  loadConfig_rejects_cyclic [⟨1, 10, [2], 0⟩, ⟨2, 10, [1], 0⟩]
    [⟨1, 10, [2], 0⟩, ⟨2, 10, [1], 0⟩] (by decide)
    ⟨by decide, by decide, by decide⟩

end ProjectValidator
